import Mathlib

/-!
# Verification of the censorscope sandbox core (src/sandbox.c)

Shallow embedding of the sandbox subsystem of the censorscope repository:
the quota-tracking allocator `l_alloc_restricted`, the instruction-count
hook `exit_hook`, the bytecode gate `is_valid_lua_script`, the module
search-path extension `prepend_package_path`, and the `sandbox_init` /
`sandbox_run` protocol.

External effects that the C code delegates to the operating system or to
the embedded Lua interpreter (the success of `malloc` / `realloc`, the
contents of a file, the outcome of `luaL_loadfile`, `lua_pcall` and
`lua_setfenv`) are supplied as explicit oracle parameters; everything the
repository itself computes (control flow, arithmetic on the quota counter,
the byte classification, the strings built and logged) is translated
directly from the C source.
-/

set_option autoImplicit false

/-- `#define BYTECODE_MAGIC_NUMBER 27` — the first byte of a precompiled
Lua chunk (sandbox.c line 13). `fgetc` returns an `int`, so the constant is
compared at type `Int`. -/
def BYTECODE_MAGIC_NUMBER : Int := 27

/-- Result of `fgetc` on a file whose remaining bytes are `content`:
the first byte widened to `int`, or `EOF` (−1) when the file is empty. -/
def fgetc (content : List Nat) : Int :=
  match content with
  | [] => -1
  | b :: _ => (b : Int)

/-- The three observable outcomes of one call to the Lua allocator
callback: `freed` is the `NULL` returned by the `nsize == 0` branch
(a success), `allocated` is a non-`NULL` pointer, `failed` is a `NULL`
returned as an allocation failure. -/
inductive AllocRet
  | freed
  | allocated
  | failed
deriving DecidableEq, Repr

/-- Everything observable about one call to `l_alloc_restricted`:
the returned pointer class, the new value of `*available`, whether the
underlying `realloc` was invoked, and the messages logged. -/
structure AllocResult where
  ret : AllocRet
  avail : Int
  calledRealloc : Bool
  logs : List String
deriving DecidableEq, Repr

/-- `l_alloc_restricted` (sandbox.c lines 31–53). `avail` is the quota
counter `*available` (a `size_t` in C, modelled as `Int` so that the
non-negativity invariant is a theorem rather than a typing artifact);
`osize`/`nsize` are the old and requested block sizes; `reallocOk` tells
whether the underlying `realloc` returns a non-`NULL` pointer when it is
consulted. -/
def l_alloc_restricted (avail : Int) (osize nsize : Nat) (reallocOk : Bool) : AllocResult :=
  if nsize = 0 then
    ⟨AllocRet.freed, avail + (osize : Int), false, []⟩
  else if osize < nsize ∧ avail < (nsize : Int) - (osize : Int) then
    ⟨AllocRet.failed, avail, false, ["Out of memory!"]⟩
  else if reallocOk then
    ⟨AllocRet.allocated,
      if osize < nsize then avail - ((nsize : Int) - (osize : Int))
      else avail + ((osize : Int) - (nsize : Int)),
      true, []⟩
  else
    ⟨AllocRet.failed, avail, true, []⟩

/-- Fold a sequence of allocator calls, threading the quota counter:
each list entry is `(osize, nsize, reallocOk)`. -/
def run_allocs (avail : Int) : List (Nat × Nat × Bool) → Int
  | [] => avail
  | c :: rest => run_allocs (l_alloc_restricted avail c.1 c.2.1 c.2.2).avail rest

/-- The Lua debug-hook events (`ar->event`). -/
inductive HookEvent
  | count
  | call
  | line
  | hookret
  | tailret
deriving DecidableEq, Repr

/-- `exit_hook` (sandbox.c lines 63–68): on a `LUA_HOOKCOUNT` event it
raises the catchable Lua error "instruction limit reached" via
`luaL_error`; on any other event it returns without raising. `some msg`
models the raised error, `none` models a plain return. -/
def exit_hook (event : HookEvent) : Option String :=
  match event with
  | HookEvent.count => some "instruction limit reached"
  | _ => none

/-- `is_valid_lua_script` (sandbox.c lines 77–97). `file` is the content
`fopen` makes available (`none` when `fopen` fails), `fcloseOk` tells
whether `fclose` succeeds. Returns the C function's return value together
with the list of messages passed to `log_error`, in order. -/
def is_valid_lua_script (filename : String) (file : Option (List Nat)) (fcloseOk : Bool) :
    Bool × List String :=
  match file with
  | none => (false, ["fopen(" ++ filename ++ ") error"])
  | some content =>
    if fcloseOk = false then
      (false, ["fgetc(" ++ filename ++ ") error"])
    else if fgetc content = 0 then
      (false, [])
    else if fgetc content = BYTECODE_MAGIC_NUMBER then
      (false, ["for security, we do not evaluate Lua bytecode"])
    else
      (true, [])

/-- The environment table bound to the loaded chunk by `lua_setfenv`:
either the fresh empty table created by `lua_newtable` (sandbox.c line
203) or the single return value of the environment-builder chunk,
modelled as an association list of its entries. -/
inductive EnvTable
  | empty
  | fromBuilder (entries : List (String × Nat))
deriving DecidableEq, Repr

/-- The entries of an environment table. -/
def EnvTable.entries : EnvTable → List (String × Nat)
  | EnvTable.empty => []
  | EnvTable.fromBuilder es => es

/-- Global-variable lookup through an environment table. -/
def EnvTable.lookup (e : EnvTable) (k : String) : Option Nat :=
  (e.entries.find? (fun p => p.1 == k)).map Prod.snd

/-- The externally visible steps `sandbox_run` performs, in order:
first-byte validation of a path, `luaL_loadfile` of a path, the protected
evaluation of the environment chunk, `lua_newtable` for the empty
environment, `lua_setfenv` binding an environment table, and the final
protected invocation of the target chunk. -/
inductive RunEvent
  | validate (path : String)
  | load (path : String)
  | evalEnv
  | newEmptyEnv
  | bindEnv (e : EnvTable)
  | invoke
deriving DecidableEq, Repr

/-- Whether a run event is a first-byte validation. -/
def RunEvent.isValidate : RunEvent → Bool
  | RunEvent.validate _ => true
  | _ => false

/-- Oracle for the external effects `sandbox_run` depends on: the file
system seen by `fopen`/`fgetc` (`fs`, keyed by path; `none` means `fopen`
fails), the success of `fclose` per path, the outcome of `luaL_loadfile`
per path (`Except.error msg` is the loader diagnostic pushed on the
stack), the outcome of the protected evaluation of the environment chunk,
whether `lua_setfenv` returns 1, the string `lua_tostring(L, -1)` yields
on the `lua_setfenv` failure path, and the outcome of the final protected
invocation. -/
structure RunOracle where
  fs : String → Option (List Nat)
  fcloseOk : String → Bool
  loadfile : String → Except String Unit
  pcallEnv : Except String (List (String × Nat))
  setfenvOk : Bool
  tostringTop : String
  pcallMain : Except String Unit

/-- Everything observable about one call to `sandbox_run`: the `int`
return value, the ordered trace of steps performed, and the messages
passed to `log_error`, in order. -/
structure RunResult where
  ret : Int
  trace : List RunEvent
  logs : List String
deriving DecidableEq, Repr

/-- The tail of `sandbox_run` (sandbox.c lines 206–220): `lua_setfenv`
binds the environment table `e` to the loaded target chunk, then
`lua_pcall` invokes the chunk under protected execution. `trace`/`logs`
are the events and messages accumulated so far. -/
def sandbox_bind_and_invoke (o : RunOracle) (filename : String) (e : EnvTable)
    (trace : List RunEvent) (logs : List String) : RunResult :=
  if o.setfenvOk = false then
    ⟨-1, trace ++ [RunEvent.bindEnv e], logs ++ [o.tostringTop]⟩
  else
    match o.pcallMain with
    | Except.error msg =>
      ⟨-1, trace ++ [RunEvent.bindEnv e, RunEvent.invoke],
        logs ++ ["error running " ++ filename ++ ": " ++ msg]⟩
    | Except.ok _ =>
      ⟨0, trace ++ [RunEvent.bindEnv e, RunEvent.invoke], logs⟩

/-- `sandbox_run` (sandbox.c lines 176–221): validate the target file,
load it, build the environment (evaluating the environment-builder chunk
when a path is given, otherwise a fresh empty table), bind it with
`lua_setfenv`, and invoke the chunk under `lua_pcall`. -/
def sandbox_run (o : RunOracle) (filename : String) (environment : Option String) : RunResult :=
  let v := is_valid_lua_script filename (o.fs filename) (o.fcloseOk filename)
  if v.1 = false then
    ⟨-1, [RunEvent.validate filename], v.2⟩
  else
    match o.loadfile filename with
    | Except.error msg =>
      ⟨-1, [RunEvent.validate filename, RunEvent.load filename], v.2 ++ [msg]⟩
    | Except.ok _ =>
      match environment with
      | some env =>
        match o.loadfile env with
        | Except.error msg =>
          ⟨-1, [RunEvent.validate filename, RunEvent.load filename, RunEvent.load env],
            v.2 ++ [msg]⟩
        | Except.ok _ =>
          match o.pcallEnv with
          | Except.error msg =>
            ⟨-1, [RunEvent.validate filename, RunEvent.load filename, RunEvent.load env,
                   RunEvent.evalEnv],
              v.2 ++ [msg]⟩
          | Except.ok entries =>
            sandbox_bind_and_invoke o filename (EnvTable.fromBuilder entries)
              [RunEvent.validate filename, RunEvent.load filename, RunEvent.load env,
                RunEvent.evalEnv]
              v.2
      | none =>
        sandbox_bind_and_invoke o filename EnvTable.empty
          [RunEvent.validate filename, RunEvent.load filename, RunEvent.newEmptyEnv]
          v.2

/-- The configuration record `censorscope_options_t` as consumed by the
sandbox core (fields parsed by `strtol` in options.c are C `long`s,
modelled as `Int`). -/
structure censorscope_options where
  max_memory : Int
  max_instructions : Int
  luasrc_dir : String
  sandbox_dir : String

/-- The parts of the Lua state that `sandbox_init` configures: the quota
counter referenced by the restricted allocator (`none` when the default
unrestricted allocator is used), the count-hook period installed by
`lua_sethook` with `LUA_MASKCOUNT` (`none` when no hook is installed; the
interpreter fires a count hook once every `period` executed
instructions), and the module search path `package.path`. -/
structure LuaState where
  allocatorQuota : Option Int
  hookPeriod : Option Int
  packagePath : String
deriving DecidableEq, Repr

/-- `prepend_package_path` (sandbox.c lines 109–125): given the current
`package.path` string and a new entry, build `"<new_entry>;<cur_path>"`
with `snprintf` into a `malloc`ed buffer and install it. `mallocOk` tells
whether that `malloc` succeeds. Returns the C return code together with
the resulting `package.path` (unchanged on failure). -/
def prepend_package_path (cur_path new_entry : String) (mallocOk : Bool) : Int × String :=
  if mallocOk then
    (0, new_entry ++ ";" ++ cur_path)
  else
    (-1, cur_path)

/-- Oracle for the external effects `sandbox_init` depends on: the
success of `lua_newstate`/`luaL_newstate`, of `censorscope_options_lua`,
of the `sprintf_malloc` building the `"<luasrc_dir>/?.lua"` pattern, and
of the `malloc` inside `prepend_package_path`. -/
structure InitOracle where
  newstateOk : Bool
  optionsLuaOk : Bool
  patternMallocOk : Bool
  pathMallocOk : Bool

/-- `sandbox_init` (sandbox.c lines 127–169): create the Lua state (with
the restricted allocator when `max_memory > 0`), install the instruction
hook when `max_instructions > 0`, open the libraries, set the identity
globals, and prepend `"<luasrc_dir>/?.lua"` to `package.path` (whose
initial value, set by `luaL_openlibs`, is `default_path`). Returns the C
return code, the state handle (`none` only when state creation itself
failed), and the messages passed to `log_error`, in order. -/
def sandbox_init (o : InitOracle) (opts : censorscope_options) (default_path : String) :
    Int × Option LuaState × List String :=
  if o.newstateOk = false then
    (-1, none, ["error calling luaL_newstate"])
  else
    let st0 : LuaState :=
      ⟨if opts.max_memory > 0 then some opts.max_memory else none,
       if opts.max_instructions > 0 then some opts.max_instructions else none,
       default_path⟩
    if o.optionsLuaOk = false then
      (-1, some st0, ["error creating table of censorscope options"])
    else if o.patternMallocOk = false then
      (-1, some st0, [])
    else
      let pp := prepend_package_path default_path (opts.luasrc_dir ++ "/?.lua") o.pathMallocOk
      if pp.1 = 0 then
        (0, some ⟨st0.allocatorQuota, st0.hookPeriod, pp.2⟩, [])
      else
        (-1, some st0, ["error setting packages.path"])

example : l_alloc_restricted 5 0 10 true = ⟨AllocRet.failed, 5, false, ["Out of memory!"]⟩ := by
  decide

example : l_alloc_restricted 10 0 4 true = ⟨AllocRet.allocated, 6, true, []⟩ := by
  decide

example : (is_valid_lua_script "t" (some []) true).1 = true := by decide

example : (is_valid_lua_script "t" (some [27]) true).1 = false := by decide

/-- One allocator call keeps the quota counter non-negative: the only
debit is guarded by `*available >= nsize - osize`. -/
lemma l_alloc_restricted_avail_nonneg (avail : Int) (osize nsize : Nat) (reallocOk : Bool)
    (h : 0 ≤ avail) : 0 ≤ (l_alloc_restricted avail osize nsize reallocOk).avail := by
  by_cases h0 : nsize = 0
  · simp [l_alloc_restricted, h0]
    omega
  · by_cases hg : osize < nsize ∧ avail < (nsize : Int) - (osize : Int)
    · simpa [l_alloc_restricted, h0, hg] using h
    · by_cases hr : reallocOk
      · simp [l_alloc_restricted, h0, hg, hr]
        by_cases hlt : osize < nsize
        · have hb : ¬avail < (nsize : Int) - (osize : Int) := fun hb => hg ⟨hlt, hb⟩
          simp [hlt]
          omega
        · simp [hlt]
          omega
      · simpa [l_alloc_restricted, h0, hg, hr] using h

/-- C2: a request with `nsize > osize` and `remaining_quota < nsize - osize`
is refused: the allocator returns `NULL` without invoking the underlying
`realloc` and leaves the quota counter unchanged; more generally, every
failed call — quota refusal or underlying `realloc` failure — leaves the
quota counter exactly unchanged. -/
theorem claim_C2 (avail : Int) (osize nsize : Nat) (reallocOk : Bool) :
    (osize < nsize → avail < (nsize : Int) - (osize : Int) →
      (l_alloc_restricted avail osize nsize reallocOk).ret = AllocRet.failed
      ∧ (l_alloc_restricted avail osize nsize reallocOk).calledRealloc = false
      ∧ (l_alloc_restricted avail osize nsize reallocOk).avail = avail)
    ∧ ((l_alloc_restricted avail osize nsize reallocOk).ret = AllocRet.failed →
      (l_alloc_restricted avail osize nsize reallocOk).avail = avail) := by
  constructor
  · intro h1 h2
    have h0 : ¬nsize = 0 := by omega
    simp [l_alloc_restricted, h0, h1, h2]
  · intro h
    by_cases h0 : nsize = 0
    · simp [l_alloc_restricted, h0] at h
    · by_cases hg : osize < nsize ∧ avail < (nsize : Int) - (osize : Int)
      · simp [l_alloc_restricted, h0, hg]
      · by_cases hr : reallocOk
        · simp [l_alloc_restricted, h0, hg, hr] at h
        · simp [l_alloc_restricted, h0, hg, hr]

/-- C3: the accounting postcondition of the allocator. A `nsize == 0`
request always frees, returns `NULL` as success and credits exactly
`osize` back to the quota, whatever its current value; a successful
resize debits `nsize - osize` when growing and credits `osize - nsize`
when shrinking. -/
theorem claim_C3 (avail : Int) (osize nsize : Nat) (reallocOk : Bool) :
    (nsize = 0 →
      (l_alloc_restricted avail osize nsize reallocOk).ret = AllocRet.freed
      ∧ (l_alloc_restricted avail osize nsize reallocOk).avail = avail + (osize : Int))
    ∧ ((l_alloc_restricted avail osize nsize reallocOk).ret = AllocRet.allocated →
      (l_alloc_restricted avail osize nsize reallocOk).avail =
        if osize < nsize then avail - ((nsize : Int) - (osize : Int))
        else avail + ((osize : Int) - (nsize : Int))) := by
  constructor
  · intro h0
    subst h0
    simp [l_alloc_restricted]
  · intro h
    by_cases h0 : nsize = 0
    · simp [l_alloc_restricted, h0] at h
    · by_cases hg : osize < nsize ∧ avail < (nsize : Int) - (osize : Int)
      · simp [l_alloc_restricted, h0, hg] at h
      · by_cases hr : reallocOk
        · simp [l_alloc_restricted, h0, hg, hr]
        · simp [l_alloc_restricted, h0, hg, hr] at h

/-- C5: starting from any non-negative quota, the counter stays
non-negative after every call of any sequence of allocation, free and
resize requests: no debit ever drives it below zero. -/
theorem claim_C5 (q : Int) (calls : List (Nat × Nat × Bool)) (h : 0 ≤ q) :
    0 ≤ run_allocs q calls := by
  induction calls generalizing q with
  | nil => simpa [run_allocs] using h
  | cons c rest ih =>
    simp only [run_allocs]
    exact ih _ (l_alloc_restricted_avail_nonneg q c.1 c.2.1 c.2.2 h)

/-- A target file accepted by the validator is handed to the loader:
`RunEvent.load filename` occurs in the trace of `sandbox_run`, whatever
the loader, environment and invocation outcomes are. -/
lemma load_mem_of_valid (o : RunOracle) (f : String) (env : Option String)
    (hv : (is_valid_lua_script f (o.fs f) (o.fcloseOk f)).1 = true) :
    RunEvent.load f ∈ (sandbox_run o f env).trace := by
  rcases hl : o.loadfile f with m | u
  · simp [sandbox_run, hv, hl]
  · cases env with
    | none =>
      by_cases hs : o.setfenvOk = false
      · simp [sandbox_run, hv, hl, sandbox_bind_and_invoke, hs]
      · rcases hm : o.pcallMain with m | u <;>
          simp [sandbox_run, hv, hl, sandbox_bind_and_invoke, hs, hm]
    | some p =>
      rcases hl2 : o.loadfile p with m | u
      · simp [sandbox_run, hv, hl, hl2]
      · rcases he : o.pcallEnv with m | es
        · simp [sandbox_run, hv, hl, hl2, he]
        · by_cases hs : o.setfenvOk = false
          · simp [sandbox_run, hv, hl, hl2, he, sandbox_bind_and_invoke, hs]
          · rcases hm : o.pcallMain with m | u <;>
              simp [sandbox_run, hv, hl, hl2, he, sandbox_bind_and_invoke, hs, hm]

/-- Trace shape of every run: the very first event is the first-byte
validation of the target path, and no later event is a validation. -/
lemma sandbox_run_trace_shape (o : RunOracle) (f : String) (env : Option String) :
    (sandbox_run o f env).trace.head? = some (RunEvent.validate f)
    ∧ ∀ e ∈ (sandbox_run o f env).trace.tail, e.isValidate = false := by
  by_cases hv : (is_valid_lua_script f (o.fs f) (o.fcloseOk f)).1 = false
  · simp [sandbox_run, hv, RunEvent.isValidate]
  · replace hv : (is_valid_lua_script f (o.fs f) (o.fcloseOk f)).1 = true :=
      Bool.not_eq_false _ ▸ Bool.of_not_eq_false hv
    rcases hl : o.loadfile f with m | u
    · simp [sandbox_run, hv, hl, RunEvent.isValidate]
    · cases env with
      | none =>
        by_cases hs : o.setfenvOk = false
        · simp [sandbox_run, hv, hl, sandbox_bind_and_invoke, hs, RunEvent.isValidate]
        · rcases hm : o.pcallMain with m | u <;>
            simp [sandbox_run, hv, hl, sandbox_bind_and_invoke, hs, hm, RunEvent.isValidate]
      | some p =>
        rcases hl2 : o.loadfile p with m | u
        · simp [sandbox_run, hv, hl, hl2, RunEvent.isValidate]
        · rcases he : o.pcallEnv with m | es
          · simp [sandbox_run, hv, hl, hl2, he, RunEvent.isValidate]
          · by_cases hs : o.setfenvOk = false
            · simp [sandbox_run, hv, hl, hl2, he, sandbox_bind_and_invoke, hs,
                RunEvent.isValidate]
            · rcases hm : o.pcallMain with m | u <;>
                simp [sandbox_run, hv, hl, hl2, he, sandbox_bind_and_invoke, hs, hm,
                  RunEvent.isValidate]

/-- An accepted and successfully loaded target with an environment path
`p` hands `p` directly to the loader: `RunEvent.load p` is in the trace,
with no validation of `p` anywhere. -/
lemma load_env_mem (o : RunOracle) (f p : String)
    (hv : (is_valid_lua_script f (o.fs f) (o.fcloseOk f)).1 = true)
    (hl : o.loadfile f = Except.ok ()) :
    RunEvent.load p ∈ (sandbox_run o f (some p)).trace := by
  rcases hl2 : o.loadfile p with m | u
  · simp [sandbox_run, hv, hl, hl2]
  · rcases he : o.pcallEnv with m | es
    · simp [sandbox_run, hv, hl, hl2, he]
    · by_cases hs : o.setfenvOk = false
      · simp [sandbox_run, hv, hl, hl2, he, sandbox_bind_and_invoke, hs]
      · rcases hm : o.pcallMain with m | u <;>
          simp [sandbox_run, hv, hl, hl2, he, sandbox_bind_and_invoke, hs, hm]

/-- C6: `sandbox_run` applies the first-byte validation to the target
path before any load (it is the first event of every trace, and the only
validation), and never applies it to the environment-builder path: any
validation event names the target path, and when the target is accepted
and loaded the environment-builder file goes straight to the loader. -/
theorem claim_C6 (o : RunOracle) (f p : String) (env : Option String) :
    ((sandbox_run o f env).trace.head? = some (RunEvent.validate f)
      ∧ ∀ e ∈ (sandbox_run o f env).trace.tail, e.isValidate = false)
    ∧ (RunEvent.validate p ∈ (sandbox_run o f (some p)).trace → p = f)
    ∧ ((is_valid_lua_script f (o.fs f) (o.fcloseOk f)).1 = true →
        o.loadfile f = Except.ok () →
        RunEvent.load p ∈ (sandbox_run o f (some p)).trace) := by
  refine ⟨sandbox_run_trace_shape o f env, fun hmem => ?_, fun hv hl => load_env_mem o f p hv hl⟩
  obtain ⟨h1, h2⟩ := sandbox_run_trace_shape o f (some p)
  cases htr : (sandbox_run o f (some p)).trace with
  | nil => rw [htr] at hmem; simp at hmem
  | cons a t =>
    rw [htr] at h1 h2 hmem
    simp only [List.head?_cons, Option.some.injEq] at h1
    rcases List.mem_cons.mp hmem with hh | ht
    · exact RunEvent.validate.inj (hh.trans h1)
    · have := h2 (RunEvent.validate p) (by simpa using ht)
      simp [RunEvent.isValidate] at this

/-- Witness for C6 on a concrete oracle, target and builder path. -/
theorem claim_C6_witness :
    ((sandbox_run
        ⟨fun _ => some [10], fun _ => true, fun _ => Except.ok (), Except.ok [], true, "x",
          Except.ok ()⟩
        "t.lua" (some "api.lua")).trace.head? = some (RunEvent.validate "t.lua"))
    ∧ RunEvent.load "api.lua" ∈ (sandbox_run
        ⟨fun _ => some [10], fun _ => true, fun _ => Except.ok (), Except.ok [], true, "x",
          Except.ok ()⟩
        "t.lua" (some "api.lua")).trace := by
  have h := claim_C6
    ⟨fun _ => some [10], fun _ => true, fun _ => Except.ok (), Except.ok [], true, "x",
      Except.ok ()⟩
    "t.lua" "api.lua" (some "api.lua")
  exact ⟨h.1.1, h.2.2 (by decide) rfl⟩

/-- C8: with no environment-builder path, `sandbox_run` creates a fresh
empty table, binds it as the chunk's environment before the invocation
(the trace is exactly validate, load, new-empty-table, bind, invoke),
and that table resolves no global at all. -/
theorem claim_C8 (o : RunOracle) (f : String)
    (hv : (is_valid_lua_script f (o.fs f) (o.fcloseOk f)).1 = true)
    (hl : o.loadfile f = Except.ok ())
    (hs : o.setfenvOk = true) :
    (sandbox_run o f none).trace
      = [RunEvent.validate f, RunEvent.load f, RunEvent.newEmptyEnv,
         RunEvent.bindEnv EnvTable.empty, RunEvent.invoke]
    ∧ ∀ k, EnvTable.lookup EnvTable.empty k = none := by
  constructor
  · rcases hm : o.pcallMain with m | u <;>
      simp [sandbox_run, hv, hl, sandbox_bind_and_invoke, hs, hm]
  · intro k
    rfl

/-- Witness for C8 on a concrete oracle. -/
theorem claim_C8_witness :
    (sandbox_run
      ⟨fun _ => some [10], fun _ => true, fun _ => Except.ok (), Except.ok [], true, "x",
        Except.ok ()⟩
      "t.lua" none).trace
      = [RunEvent.validate "t.lua", RunEvent.load "t.lua", RunEvent.newEmptyEnv,
         RunEvent.bindEnv EnvTable.empty, RunEvent.invoke]
    ∧ EnvTable.lookup EnvTable.empty "x" = none := by
  have h := claim_C8
    ⟨fun _ => some [10], fun _ => true, fun _ => Except.ok (), Except.ok [], true, "x",
      Except.ok ()⟩
    "t.lua" (by decide) rfl rfl
  exact ⟨h.1, h.2 "x"⟩

/-- C1: for a file that opens and closes cleanly, the validator
classifies by the first byte alone — byte 27 is rejected with the
security message and `sandbox_run` stops before any load; byte 0 is
rejected with no message and `sandbox_run` stops before any load; any
other first byte is accepted and `sandbox_run` proceeds to load the
file. -/
theorem claim_C1 (o : RunOracle) (f : String) (env : Option String) (content : List Nat)
    (hfs : o.fs f = some content) (hc : o.fcloseOk f = true) :
    (fgetc content = BYTECODE_MAGIC_NUMBER →
      is_valid_lua_script f (o.fs f) (o.fcloseOk f)
        = (false, ["for security, we do not evaluate Lua bytecode"])
      ∧ (sandbox_run o f env).ret = -1
      ∧ (sandbox_run o f env).trace = [RunEvent.validate f])
    ∧ (fgetc content = 0 →
      is_valid_lua_script f (o.fs f) (o.fcloseOk f) = (false, [])
      ∧ (sandbox_run o f env).ret = -1
      ∧ (sandbox_run o f env).trace = [RunEvent.validate f])
    ∧ (fgetc content ≠ 0 → fgetc content ≠ BYTECODE_MAGIC_NUMBER →
      is_valid_lua_script f (o.fs f) (o.fcloseOk f) = (true, [])
      ∧ RunEvent.load f ∈ (sandbox_run o f env).trace) := by
  refine ⟨fun h27 => ?_, fun h0 => ?_, fun h0 h27 => ?_⟩
  · have hv : is_valid_lua_script f (o.fs f) (o.fcloseOk f)
        = (false, ["for security, we do not evaluate Lua bytecode"]) := by
      simp [is_valid_lua_script, hfs, hc, h27, BYTECODE_MAGIC_NUMBER]
    exact ⟨hv, by simp [sandbox_run, hv], by simp [sandbox_run, hv]⟩
  · have hv : is_valid_lua_script f (o.fs f) (o.fcloseOk f) = (false, []) := by
      simp [is_valid_lua_script, hfs, hc, h0]
    exact ⟨hv, by simp [sandbox_run, hv], by simp [sandbox_run, hv]⟩
  · have hv : is_valid_lua_script f (o.fs f) (o.fcloseOk f) = (true, []) := by
      simp [is_valid_lua_script, hfs, hc, h0, h27]
    exact ⟨hv, load_mem_of_valid o f env (by simp [hv])⟩

/-- Witness for C1 on the one-byte file `[27]`. -/
theorem claim_C1_witness :
    ((fun _ => some [27] : String → Option (List Nat)) "t.lua" = some [27]
      ∧ (fun _ => true : String → Bool) "t.lua" = true)
    ∧ (is_valid_lua_script "t.lua" (some [27]) true
        = (false, ["for security, we do not evaluate Lua bytecode"])
      ∧ (sandbox_run
          ⟨fun _ => some [27], fun _ => true, fun _ => Except.ok (), Except.ok [], true, "x",
            Except.ok ()⟩
          "t.lua" none).ret = -1) := by
  have h := claim_C1
    ⟨fun _ => some [27], fun _ => true, fun _ => Except.ok (), Except.ok [], true, "x",
      Except.ok ()⟩
    "t.lua" none [27] rfl rfl
  have h27 := h.1 (by decide)
  exact ⟨⟨rfl, rfl⟩, ⟨h27.1, h27.2.1⟩⟩

/-- C10: an empty file that opens and closes cleanly yields `EOF` (−1)
from `fgetc`, which is neither 0 nor the bytecode signature byte, so the
validator accepts it with no message and `sandbox_run` proceeds to the
load step. -/
theorem claim_C10 (o : RunOracle) (f : String) (env : Option String)
    (hfs : o.fs f = some []) (hc : o.fcloseOk f = true) :
    fgetc [] = -1
    ∧ fgetc ([] : List Nat) ≠ 0
    ∧ fgetc ([] : List Nat) ≠ BYTECODE_MAGIC_NUMBER
    ∧ is_valid_lua_script f (o.fs f) (o.fcloseOk f) = (true, [])
    ∧ RunEvent.load f ∈ (sandbox_run o f env).trace := by
  have hv : is_valid_lua_script f (o.fs f) (o.fcloseOk f) = (true, []) := by
    simp [is_valid_lua_script, hfs, hc, fgetc, BYTECODE_MAGIC_NUMBER]
  exact ⟨rfl, by decide, by decide, hv, load_mem_of_valid o f env (by simp [hv])⟩

/-- Witness for C10 on a concrete oracle holding an empty file. -/
theorem claim_C10_witness :
    ((fun _ => some [] : String → Option (List Nat)) "e.lua" = some ([] : List Nat)
      ∧ (fun _ => true : String → Bool) "e.lua" = true)
    ∧ (is_valid_lua_script "e.lua" (some []) true = (true, [])
      ∧ RunEvent.load "e.lua" ∈ (sandbox_run
          ⟨fun _ => some [], fun _ => true, fun _ => Except.ok (), Except.ok [], true, "x",
            Except.ok ()⟩
          "e.lua" none).trace) := by
  have h := claim_C10
    ⟨fun _ => some [], fun _ => true, fun _ => Except.ok (), Except.ok [], true, "x",
      Except.ok ()⟩
    "e.lua" none rfl rfl
  exact ⟨⟨rfl, rfl⟩, ⟨h.2.2.2.1, h.2.2.2.2⟩⟩

/-- The hook field of any state handle `sandbox_init` returns: the
count hook is installed, with period `max_instructions`, exactly when
`max_instructions > 0`. -/
lemma sandbox_init_hookPeriod (io : InitOracle) (opts : censorscope_options) (dp : String)
    (st : LuaState) (hst : (sandbox_init io opts dp).2.1 = some st) :
    st.hookPeriod = if opts.max_instructions > 0 then some opts.max_instructions else none := by
  by_cases hn : io.newstateOk = false
  · simp [sandbox_init, hn] at hst
  · by_cases ho : io.optionsLuaOk = false
    · simp [sandbox_init, hn, ho] at hst
      rw [← hst]
    · by_cases hpm : io.patternMallocOk = false
      · simp [sandbox_init, hn, ho, hpm] at hst
        rw [← hst]
      · by_cases hpp : io.pathMallocOk
        · simp [sandbox_init, hn, ho, hpm, prepend_package_path, hpp] at hst
          rw [← hst]
        · simp [sandbox_init, hn, ho, hpm, prepend_package_path, hpp] at hst
          rw [← hst]

/-- C4: the instruction limiter. `sandbox_init` installs the count hook
(with period `max_instructions`) exactly when `max_instructions > 0`;
the hook fires only on count events and raises the catchable error
"instruction limit reached"; and an error raised during the protected
final invocation is caught by `sandbox_run`, which returns −1 and logs
the error text instead of propagating it. -/
theorem claim_C4 (io : InitOracle) (opts : censorscope_options) (dp : String)
    (o : RunOracle) (f m : String)
    (hv : (is_valid_lua_script f (o.fs f) (o.fcloseOk f)).1 = true)
    (hl : o.loadfile f = Except.ok ())
    (hs : o.setfenvOk = true)
    (hm : o.pcallMain = Except.error m) :
    (∀ st, (sandbox_init io opts dp).2.1 = some st →
      st.hookPeriod = if opts.max_instructions > 0 then some opts.max_instructions else none)
    ∧ exit_hook HookEvent.count = some "instruction limit reached"
    ∧ (∀ e, e ≠ HookEvent.count → exit_hook e = none)
    ∧ (sandbox_run o f none).ret = -1
    ∧ ("error running " ++ f ++ ": " ++ m) ∈ (sandbox_run o f none).logs := by
  refine ⟨fun st hst => sandbox_init_hookPeriod io opts dp st hst, rfl, fun e he => ?_, ?_, ?_⟩
  · cases e <;> first | exact absurd rfl he | rfl
  · simp [sandbox_run, hv, hl, sandbox_bind_and_invoke, hs, hm]
  · simp [sandbox_run, hv, hl, sandbox_bind_and_invoke, hs, hm]

/-- Witness for C4: limit 100 installs the hook with period 100, and a
run whose invocation raises "instruction limit reached" is caught. -/
theorem claim_C4_witness :
    exit_hook HookEvent.count = some "instruction limit reached"
    ∧ (sandbox_run
        ⟨fun _ => some [10], fun _ => true, fun _ => Except.ok (), Except.ok [], true, "x",
          Except.error "instruction limit reached"⟩
        "loop.lua" none).ret = -1 := by
  have h := claim_C4 ⟨true, true, true, true⟩ ⟨0, 100, "luasrc", "sandbox"⟩ "p"
    ⟨fun _ => some [10], fun _ => true, fun _ => Except.ok (), Except.ok [], true, "x",
      Except.error "instruction limit reached"⟩
    "loop.lua" "instruction limit reached" (by decide) rfl rfl rfl
  exact ⟨h.2.1, h.2.2.2.1⟩

/-- C7: the path extender. `prepend_package_path` succeeds exactly when
its `malloc` succeeds, in which case the new path is
`"<new_entry>;<existing>"` and on failure the path is exactly unchanged;
through `sandbox_init` a successful initialization leaves
`package.path = "<luasrc_dir>/?.lua;<existing>"`, and a failed one
leaves the path exactly as it was. -/
theorem claim_C7 (cur e dp : String) (ok : Bool) (io : InitOracle)
    (opts : censorscope_options) :
    ((prepend_package_path cur e ok).1 = 0 ↔ ok = true)
    ∧ (ok = true → prepend_package_path cur e ok = (0, e ++ ";" ++ cur))
    ∧ (ok = false → prepend_package_path cur e ok = (-1, cur))
    ∧ ((sandbox_init io opts dp).1 = 0 →
        ∀ st, (sandbox_init io opts dp).2.1 = some st →
          st.packagePath = opts.luasrc_dir ++ "/?.lua;" ++ dp)
    ∧ ((sandbox_init io opts dp).1 = -1 →
        ∀ st, (sandbox_init io opts dp).2.1 = some st → st.packagePath = dp) := by
  have hlit : ("/?.lua" : String) ++ ";" = "/?.lua;" := rfl
  refine ⟨?_, fun h => by simp [prepend_package_path, h], fun h => by
    simp [prepend_package_path, h], ?_, ?_⟩
  · cases ok <;> simp [prepend_package_path]
  · intro hret st hst
    by_cases hn : io.newstateOk = false
    · simp [sandbox_init, hn] at hret
    · by_cases ho : io.optionsLuaOk = false
      · simp [sandbox_init, hn, ho] at hret
      · by_cases hpm : io.patternMallocOk = false
        · simp [sandbox_init, hn, ho, hpm] at hret
        · by_cases hpp : io.pathMallocOk
          · simp [sandbox_init, hn, ho, hpm, prepend_package_path, hpp] at hst
            rw [← hst]
            show opts.luasrc_dir ++ "/?.lua" ++ ";" ++ dp = opts.luasrc_dir ++ "/?.lua;" ++ dp
            rw [String.append_assoc opts.luasrc_dir "/?.lua" ";", hlit]
          · simp [sandbox_init, hn, ho, hpm, prepend_package_path, hpp] at hret
  · intro hret st hst
    by_cases hn : io.newstateOk = false
    · simp [sandbox_init, hn] at hst
    · by_cases ho : io.optionsLuaOk = false
      · simp [sandbox_init, hn, ho] at hst
        rw [← hst]
      · by_cases hpm : io.patternMallocOk = false
        · simp [sandbox_init, hn, ho, hpm] at hst
          rw [← hst]
        · by_cases hpp : io.pathMallocOk
          · simp [sandbox_init, hn, ho, hpm, prepend_package_path, hpp] at hret
          · simp [sandbox_init, hn, ho, hpm, prepend_package_path, hpp] at hst
            rw [← hst]

/-- Witness for C7: a successful and a failed concrete call, and a
successful concrete initialization. -/
theorem claim_C7_witness :
    prepend_package_path "old" "luasrc/?.lua" true = (0, "luasrc/?.lua;old")
    ∧ prepend_package_path "old" "luasrc/?.lua" false = (-1, "old")
    ∧ ∀ st, (sandbox_init ⟨true, true, true, true⟩ ⟨0, 0, "luasrc", "sandbox"⟩ "old").2.1
        = some st → st.packagePath = "luasrc" ++ "/?.lua;" ++ "old" := by
  have h := claim_C7 "old" "luasrc/?.lua" "old" true ⟨true, true, true, true⟩
    ⟨0, 0, "luasrc", "sandbox"⟩
  have h2 := claim_C7 "old" "luasrc/?.lua" "old" false ⟨true, true, true, true⟩
    ⟨0, 0, "luasrc", "sandbox"⟩
  refine ⟨?_, h2.2.2.1 rfl, fun st hst => h.2.2.2.1 rfl st hst⟩
  have := h.2.1 rfl
  rw [this]
  rfl

/-- C9 (amended): every failure of `sandbox_run` and `sandbox_init`
returns −1 to the caller, and every failure path emits a diagnostic
message, except exactly two silent paths: `sandbox_run`'s rejection of a
file whose first byte is 0, and `sandbox_init`'s failure to allocate the
`"<luasrc_dir>/?.lua"` pattern string. Formally: a −1 return with an
empty log can only come from one of those two paths. -/
theorem claim_C9 (o : RunOracle) (f : String) (env : Option String)
    (io : InitOracle) (opts : censorscope_options) (dp : String) :
    ((sandbox_run o f env).ret = -1 → (sandbox_run o f env).logs = [] →
      ∃ content, o.fs f = some content ∧ o.fcloseOk f = true ∧ fgetc content = 0)
    ∧ ((sandbox_init io opts dp).1 = -1 → (sandbox_init io opts dp).2.2 = [] →
      io.patternMallocOk = false) := by
  constructor
  · intro hret hlogs
    rcases hfs : o.fs f with _ | content
    · simp [sandbox_run, is_valid_lua_script, hfs] at hlogs
    · by_cases hcl : o.fcloseOk f = true
      · by_cases h0 : fgetc content = 0
        · exact ⟨content, rfl, hcl, h0⟩
        · by_cases h27 : fgetc content = BYTECODE_MAGIC_NUMBER
          · simp [sandbox_run, is_valid_lua_script, BYTECODE_MAGIC_NUMBER, hfs, hcl, h0,
              h27] at hlogs
          · have hv : is_valid_lua_script f (o.fs f) (o.fcloseOk f) = (true, []) := by
              simp [is_valid_lua_script, hfs, hcl, h0, h27]
            rcases hl : o.loadfile f with m | u
            · simp [sandbox_run, hv, hl] at hlogs
            · cases env with
              | none =>
                by_cases hs : o.setfenvOk = false
                · simp [sandbox_run, hv, hl, sandbox_bind_and_invoke, hs] at hlogs
                · rcases hm : o.pcallMain with m | u
                  · simp [sandbox_run, hv, hl, sandbox_bind_and_invoke, hs, hm] at hlogs
                  · simp [sandbox_run, hv, hl, sandbox_bind_and_invoke, hs, hm] at hret
              | some p =>
                rcases hl2 : o.loadfile p with m | u
                · simp [sandbox_run, hv, hl, hl2] at hlogs
                · rcases he : o.pcallEnv with m | es
                  · simp [sandbox_run, hv, hl, hl2, he] at hlogs
                  · by_cases hs : o.setfenvOk = false
                    · simp [sandbox_run, hv, hl, hl2, he, sandbox_bind_and_invoke,
                        hs] at hlogs
                    · rcases hm : o.pcallMain with m | u
                      · simp [sandbox_run, hv, hl, hl2, he, sandbox_bind_and_invoke,
                          hs, hm] at hlogs
                      · simp [sandbox_run, hv, hl, hl2, he, sandbox_bind_and_invoke,
                          hs, hm] at hret
      · simp [sandbox_run, is_valid_lua_script, hfs, hcl] at hlogs
  · intro hret hlogs
    by_cases hn : io.newstateOk = false
    · simp [sandbox_init, hn] at hlogs
    · by_cases ho : io.optionsLuaOk = false
      · simp [sandbox_init, hn, ho] at hlogs
      · by_cases hpm : io.patternMallocOk = false
        · exact hpm
        · by_cases hpp : io.pathMallocOk
          · simp [sandbox_init, hn, ho, hpm, prepend_package_path, hpp] at hret
          · simp [sandbox_init, hn, ho, hpm, prepend_package_path, hpp] at hlogs

/-- Witness for C9 (amended) on the silent `sandbox_init` path: pattern
allocation fails, `sandbox_init` returns −1 with no message. -/
theorem claim_C9_witness :
    (sandbox_init ⟨true, true, false, true⟩ ⟨0, 0, "luasrc", "sandbox"⟩ "p").1 = -1
    ∧ (sandbox_init ⟨true, true, false, true⟩ ⟨0, 0, "luasrc", "sandbox"⟩ "p").2.2 = []
    ∧ (⟨true, true, false, true⟩ : InitOracle).patternMallocOk = false :=
  ⟨rfl, rfl,
    (claim_C9
      ⟨fun _ => some [0], fun _ => true, fun _ => Except.ok (), Except.ok [], true, "x",
        Except.ok ()⟩
      "t.lua" none ⟨true, true, false, true⟩ ⟨0, 0, "luasrc", "sandbox"⟩ "p").2 rfl rfl⟩

/-- Counterexample to C9 as stated: a target file whose first byte is 0
makes `sandbox_run` fail (return −1) with no diagnostic message at all —
a failure reported by status alone. -/
theorem claim_C9_counterexample :
    (sandbox_run
      ⟨fun _ => some [0], fun _ => true, fun _ => Except.ok (), Except.ok [], true, "x",
        Except.ok ()⟩ "t.lua" none).ret = -1
    ∧ (sandbox_run
      ⟨fun _ => some [0], fun _ => true, fun _ => Except.ok (), Except.ok [], true, "x",
        Except.ok ()⟩ "t.lua" none).logs = [] :=
  ⟨rfl, rfl⟩

/-- Witness for C2 at `avail = 5`, `osize = 0`, `nsize = 10`. -/
theorem claim_C2_witness :
    ((0 : Nat) < 10 ∧ (5 : Int) < (10 : Int) - (0 : Int))
    ∧ (l_alloc_restricted 5 0 10 true).ret = AllocRet.failed
    ∧ (l_alloc_restricted 5 0 10 true).calledRealloc = false
    ∧ (l_alloc_restricted 5 0 10 true).avail = 5 :=
  ⟨⟨by decide, by decide⟩, (claim_C2 5 0 10 true).1 (by decide) (by decide)⟩

/-- Witness for C3 at `avail = 3`, `osize = 7`, `nsize = 0`. -/
theorem claim_C3_witness :
    (l_alloc_restricted 3 7 0 true).ret = AllocRet.freed
    ∧ (l_alloc_restricted 3 7 0 true).avail = 10 := by
  have h := (claim_C3 3 7 0 true).1 rfl
  exact ⟨h.1, by rw [h.2]; norm_num⟩

/-- Witness for C5 on a concrete call sequence from quota 8. -/
theorem claim_C5_witness :
    (0 : Int) ≤ 8 ∧ (0 : Int) ≤ run_allocs 8 [(0, 5, true), (5, 0, true), (0, 9, true)] :=
  ⟨by decide, claim_C5 8 [(0, 5, true), (5, 0, true), (0, 9, true)] (by decide)⟩
